import Mathlib

/-!
Shallow embedding of the measurement-to-mass conversion and nutrient
aggregation pipeline of the nutrition-label generator frontend.

The embedded code:
* `combineIngredients` — `src/frontend/src/api/client.js`, the weighted
  per-100g aggregator;
* `convertIngredient`, `handleUnitChangeUpdate`, `combinedNutrition`,
  `hasLowConfidence`/`hasMediumConfidence` and the overall confidence
  banner — the `RecipeBuilder` component in
  `src/frontend/src/components/RecipeReview.jsx`;
* `handleSubmit` — the `ServingSizeForm` component;
* `initialYieldWeight` — the `RecipeReview` component's initial yield
  state; the `normalize` step itself lives in the backend and is
  modelled from the spec.

Machine floats of JavaScript are modelled by exact rationals `ℚ`;
`null`/`undefined` by `Option`.
-/

/-- The 15 recognized nutrient keys of a `NutrientProfile`
(the keys of the `combined` object in `combineIngredients`). -/
inductive NutrientKey where
  | calories
  | total_fat_g
  | saturated_fat_g
  | trans_fat_g
  | cholesterol_mg
  | sodium_mg
  | total_carbohydrate_g
  | dietary_fiber_g
  | total_sugars_g
  | added_sugars_g
  | protein_g
  | vitamin_d_mcg
  | calcium_mg
  | iron_mg
  | potassium_mg
  deriving DecidableEq, Repr

/-- A per-100g nutrient profile: any key may be absent (`none` models a
missing / `null` JS property). -/
def NutrientProfile : Type := NutrientKey → Option ℚ

/-- Input element of `combineIngredients`:
`{nutrition: object, weight_g: number}` (JSDoc contract in client.js). -/
structure CombineInput where
  nutrition : NutrientProfile
  weight_g : ℚ

/-- `ingredients.reduce((sum, ing) => sum + ing.weight_g, 0)` in
`combineIngredients`. -/
def totalWeight (l : List CombineInput) : ℚ :=
  (l.map (fun i => i.weight_g)).sum

/-- One iteration of the inner loop of `combineIngredients`: for each key,
`if (ing.nutrition[key] != null) combined[key] += ing.nutrition[key] * factor`
with `factor = ing.weight_g / 100`. -/
def addIngredient (acc : NutrientKey → ℚ) (ing : CombineInput) : NutrientKey → ℚ :=
  fun k =>
    match ing.nutrition k with
    | some v => acc k + v * (ing.weight_g / 100)
    | none => acc k

/-- `combineIngredients` from `src/frontend/src/api/client.js`:
total weight by `reduce`; `null` when the total is `0`; otherwise every
key starts at `0`, each ingredient adds its per-100g value scaled by
`weight_g / 100` when the value is non-null, and finally every key is
rescaled by `100 / totalWeight`. -/
def combineIngredients (l : List CombineInput) : Option (NutrientKey → ℚ) :=
  if totalWeight l = 0 then none
  else
    let summed := l.foldl addIngredient (fun _ => 0)
    some (fun k => summed k * (100 / totalWeight l))

/-- Contribution of one ingredient to the running sum at key `k`
(the increment performed by `addIngredient`, `0` when the key is absent). -/
def contrib (k : NutrientKey) (i : CombineInput) : ℚ :=
  match i.nutrition k with
  | some v => v * (i.weight_g / 100)
  | none => 0

/-- Conversion confidence tiers. -/
inductive Confidence where
  | high
  | medium
  | low
  deriving DecidableEq, Repr

/-- Numeric rank of a confidence tier, `low` lowest: used to state the
"never higher than" ordering of the spec. -/
def confRank : Confidence → Nat
  | Confidence.low => 0
  | Confidence.medium => 1
  | Confidence.high => 2

/-- Result of the `RecipeBuilder.convertIngredient` callback:
`{ grams, confidence, note }`. -/
structure ConvResult where
  grams : ℚ
  confidence : Confidence
  note : Option String
  deriving DecidableEq, Repr

/-- `RecipeBuilder.convertIngredient` (RecipeReview.jsx): if the unit is
`"g"` it returns `{grams: quantity, confidence: 'high', note: null}`
without consulting the external lookup; otherwise the outcome of
`convertIngredientToGrams` is returned on success, and on any error the
callback catches it and returns the rough estimate
`{grams: quantity * 100, confidence: 'low', note: ...}`. The external
call's outcome is passed as the `lookup` argument. -/
def convertIngredient (descr : String) (quantity : ℚ) (unit : String)
    (lookup : Except String ConvResult) : ConvResult :=
  if unit = "g" then ⟨quantity, Confidence.high, none⟩
  else
    match lookup with
    | Except.ok r => ⟨r.grams, r.confidence, r.note⟩
    | Except.error _ =>
        ⟨quantity * 100, Confidence.low, some "Conversion failed. Using rough estimate."⟩

/-- Ingredient record of the `RecipeBuilder` list state: `weight_g`,
`confidence` and `conversionNote` are `null` while a conversion is
outstanding. -/
structure RBIngredient where
  description : String
  quantity : ℚ
  unit : String
  nutrition : NutrientProfile
  weight_g : Option ℚ
  confidence : Option Confidence
  conversionNote : Option String

/-- The per-ingredient update performed by `RecipeBuilder.handleUnitChange`:
changing the unit to `"g"` sets `weight_g` to the current quantity with
`high` confidence and clears the note; any other unit clears `weight_g`
and `confidence` (marks the ingredient as needing conversion). -/
def handleUnitChangeUpdate (ing : RBIngredient) (u : String) : RBIngredient :=
  if u = "g" then
    { ing with
        unit := u
        weight_g := some ing.quantity
        confidence := some Confidence.high
        conversionNote := none }
  else
    { ing with unit := u, weight_g := none, confidence := none }

/-- Coercion from a `RecipeBuilder` list entry to the shape consumed by
`combineIngredients` (the JS passes the same objects; `weight_g` is
guaranteed non-null by the caller's guard). -/
def toCombineInput (i : RBIngredient) : CombineInput :=
  ⟨i.nutrition, i.weight_g.getD 0⟩

/-- `ingredients.every((ing) => ing.weight_g != null && ing.weight_g > 0)`
from the `combinedNutrition` memo. -/
def allConverted (l : List RBIngredient) : Bool :=
  l.all (fun i =>
    match i.weight_g with
    | some w => decide (0 < w)
    | none => false)

/-- The `combinedNutrition` memo of `RecipeBuilder`: `null` when the list
is empty or some ingredient lacks a positive resolved weight, otherwise
`combineIngredients` on the list. -/
def combinedNutrition (l : List RBIngredient) : Option (NutrientKey → ℚ) :=
  if l.isEmpty || !allConverted l then none
  else combineIngredients (l.map toCombineInput)

/-- `ingredients.some((ing) => ing.confidence === 'low')`. -/
def hasLowConfidence (l : List RBIngredient) : Bool :=
  l.any (fun i => i.confidence = some Confidence.low)

/-- `ingredients.some((ing) => ing.confidence === 'medium')`. -/
def hasMediumConfidence (l : List RBIngredient) : Bool :=
  l.any (fun i => i.confidence = some Confidence.medium)

/-- The overall confidence indicator shown by the `RecipeBuilder`
warning banner: `low` styling when any ingredient is `low`, else
`medium` styling when any is `medium`, else no warning (`high`). -/
def overallConfidence (l : List RBIngredient) : Confidence :=
  if hasLowConfidence l then Confidence.low
  else if hasMediumConfidence l then Confidence.medium
  else Confidence.high

/-- The serving configuration assembled by `ServingSizeForm.handleSubmit`. -/
structure ServingConfig where
  serving_size_g : ℚ
  serving_size_description : String
  servings_per_container : ℚ
  deriving DecidableEq, Repr

/-- Outcome of `ServingSizeForm.handleSubmit`: either a validation error
message is set, or the per-serving calculator is invoked with the config. -/
inductive SubmitOutcome where
  | failed (msg : String)
  | calculated (config : ServingConfig)
  deriving DecidableEq, Repr

/-- `ServingSizeForm.handleSubmit` (validation part): rejects a
non-positive serving size, then a non-positive servings-per-container,
then a blank description, and only otherwise builds the `ServingConfig`
and calls `calculatePerServing`. -/
def handleSubmit (sizeG : ℚ) (descr : String) (perContainer : ℚ) : SubmitOutcome :=
  if sizeG ≤ 0 then SubmitOutcome.failed "Serving size must be greater than 0"
  else if perContainer ≤ 0 then
    SubmitOutcome.failed "Servings per container must be greater than 0"
  else if descr.trim = "" then SubmitOutcome.failed "Please enter a serving description"
  else SubmitOutcome.calculated ⟨sizeG, descr, perContainer⟩

/-- JavaScript `a || b` on a possibly-missing number: `b` when `a` is
absent or `0` (falsy), otherwise the value of `a`. -/
def jsOr (o : Option ℚ) (d : ℚ) : ℚ :=
  match o with
  | some v => if v = 0 then d else v
  | none => d

/-- The initial `yieldWeight` state of `RecipeReview`:
`nutritionResult?.yield_weight_g || nutritionResult?.total_raw_weight_g || 0`. -/
def initialYieldWeight (yw traw : Option ℚ) : ℚ :=
  jsOr yw (jsOr traw 0)

/-- Modelled from the spec: `YieldNormalizer.normalize` is implemented in
the backend, which is not part of the frontend sources; §4.3 gives
`normalized[k] = aggregate[k] * (total_raw_weight_g / yield_weight_g)`
for every key. -/
def normalizeYield (aggregate : NutrientKey → ℚ) (totalRaw yieldW : ℚ) :
    NutrientKey → ℚ :=
  fun k => aggregate k * (totalRaw / yieldW)

/-- `scaleWeights c l` multiplies every ingredient's gram weight by `c`
(instrumentation for the rescaling-invariance property; the nutrition
profiles are untouched). -/
def scaleWeights (c : ℚ) (l : List CombineInput) : List CombineInput :=
  l.map (fun i => { i with weight_g := c * i.weight_g })

/-- `fillKeyZero k i` replaces an absent value at key `k` of the
ingredient's profile by an explicit `0`; a supplied value at `k` and
every other key are left alone. -/
def fillKeyZero (k : NutrientKey) (i : CombineInput) : CombineInput :=
  { i with
      nutrition := fun k2 =>
        if k2 = k then some ((i.nutrition k).getD 0) else i.nutrition k2 }


/-- Profile of example ingredient A: 200 g with
`{calories: 100, protein_g: 10}` per 100 g. -/
def profA : NutrientProfile := fun k =>
  match k with
  | NutrientKey.calories => some 100
  | NutrientKey.protein_g => some 10
  | _ => none

/-- Profile of example ingredient B: 100 g with
`{calories: 50, protein_g: 0}` per 100 g. -/
def profB : NutrientProfile := fun k =>
  match k with
  | NutrientKey.calories => some 50
  | NutrientKey.protein_g => some 0
  | _ => none

/-- A profile supplying calories only (protein absent). -/
def profAbsent : NutrientProfile := fun k =>
  match k with
  | NutrientKey.calories => some 50
  | _ => none

/-- The same profile with protein supplied as an explicit `0`. -/
def profExplicitZero : NutrientProfile := fun k =>
  match k with
  | NutrientKey.calories => some 50
  | NutrientKey.protein_g => some 0
  | _ => none

/-- A profile supplying no key at all. -/
def profEmpty : NutrientProfile := fun _ => none

/-- A concrete `RecipeBuilder` list entry with a `low`-confidence
estimated weight. -/
def ingLow : RBIngredient :=
  ⟨"butter", 1, "stick", profEmpty, some 100, some Confidence.low, some "estimate"⟩

/-- A concrete `RecipeBuilder` list entry with a `medium`-confidence
table-derived weight. -/
def ingMed : RBIngredient :=
  ⟨"flour", 2, "cup", profEmpty, some 240, some Confidence.medium, none⟩
/-- A mixed list: `protein_g` is absent on the first ingredient and
supplied (non-zero) by the second. -/
def mixedList : List CombineInput := [⟨profAbsent, 100⟩, ⟨profA, 200⟩]

theorem addIngredient_eq (acc : NutrientKey → ℚ) (i : CombineInput) (k : NutrientKey) :
    addIngredient acc i k = acc k + contrib k i := by
  unfold addIngredient contrib
  cases i.nutrition k <;> simp

theorem foldl_addIngredient_eq (l : List CombineInput) (acc : NutrientKey → ℚ)
    (k : NutrientKey) :
    (l.foldl addIngredient acc) k = acc k + (l.map (contrib k)).sum := by
  induction l generalizing acc with
  | nil => simp
  | cons i t ih =>
      simp only [List.foldl_cons, List.map_cons, List.sum_cons]
      rw [ih, addIngredient_eq]
      ring

theorem totalWeight_pos (l : List CombineInput) (hne : l ≠ [])
    (hw : ∀ i ∈ l, 0 < i.weight_g) : 0 < totalWeight l := by
  unfold totalWeight
  apply List.sum_pos
  · intro a ha
    obtain ⟨i, hi, rfl⟩ := List.mem_map.mp ha
    exact hw i hi
  · simpa using hne

theorem combineIngredients_eq_of_ne (l : List CombineInput)
    (hT : totalWeight l ≠ 0) :
    combineIngredients l =
      some (fun k => (l.map (contrib k)).sum * (100 / totalWeight l)) := by
  simp only [combineIngredients]
  rw [if_neg hT]
  congr 1
  funext k
  rw [foldl_addIngredient_eq, zero_add]

/-- C4: aggregation of the empty ingredient list returns `null`, and
aggregation of any ingredient list whose gram weights sum to `0` returns
`null` (an undefined profile, not a zero-nutrient profile). -/
theorem combineIngredients_null_on_zero_total (l : List CombineInput)
    (h : totalWeight l = 0) :
    combineIngredients [] = none ∧ combineIngredients l = none := by
  constructor
  · simp [combineIngredients, totalWeight]
  · simp [combineIngredients, h]

/-- Witness for C4 at a one-ingredient list of weight `0`. -/
theorem combineIngredients_null_on_zero_total_witness :
    combineIngredients [] = none ∧ combineIngredients [⟨profEmpty, 0⟩] = none :=
  combineIngredients_null_on_zero_total [⟨profEmpty, 0⟩] (by norm_num [totalWeight])

/-- C1: for a nonempty list of ingredients with positive gram weights,
and any recognized nutrient key supplied by every ingredient, the
combined per-100g value at that key is
`(Σ_i grams_i/100 * profile_i[k]) * (100 / total_mass)`. -/
theorem combineIngredients_weighted_formula (l : List CombineInput)
    (hne : l ≠ []) (hw : ∀ i ∈ l, 0 < i.weight_g) (k : NutrientKey)
    (hk : ∀ i ∈ l, (i.nutrition k).isSome = true) :
    ∃ f, combineIngredients l = some f ∧
      f k = (l.map (fun i => (i.weight_g / 100) * ((i.nutrition k).getD 0))).sum
              * (100 / totalWeight l) := by
  have hT : totalWeight l ≠ 0 := ne_of_gt (totalWeight_pos l hne hw)
  refine ⟨fun k2 => (l.foldl addIngredient (fun _ => 0)) k2 * (100 / totalWeight l),
    ?_, ?_⟩
  · unfold combineIngredients
    rw [if_neg hT]
  · show List.foldl addIngredient (fun _ => 0) l k * (100 / totalWeight l) = _
    rw [foldl_addIngredient_eq, zero_add]
    congr 2
    apply List.map_congr_left
    intro i hi
    obtain ⟨v, hv⟩ := Option.isSome_iff_exists.mp (hk i hi)
    simp [contrib, hv]
    ring

/-- Witness for C1 on the spec's example: A = 200 g of
`{calories: 100, protein_g: 10}`, B = 100 g of `{calories: 50, protein_g: 0}`
combine to `calories = 250/3` and `protein_g = 20/3` per 100 g. -/
theorem combineIngredients_weighted_formula_witness :
    ∃ f, combineIngredients [⟨profA, 200⟩, ⟨profB, 100⟩] = some f ∧
      f NutrientKey.calories = 250 / 3 ∧ f NutrientKey.protein_g = 20 / 3 := by
  obtain ⟨f, hf, hc⟩ := combineIngredients_weighted_formula
    [⟨profA, 200⟩, ⟨profB, 100⟩] (by simp)
    (by intro i hi; fin_cases hi <;> norm_num)
    NutrientKey.calories (by intro i hi; fin_cases hi <;> simp [profA, profB])
  obtain ⟨g, hg, hp⟩ := combineIngredients_weighted_formula
    [⟨profA, 200⟩, ⟨profB, 100⟩] (by simp)
    (by intro i hi; fin_cases hi <;> norm_num)
    NutrientKey.protein_g (by intro i hi; fin_cases hi <;> simp [profA, profB])
  have hfg : f = g := by
    rw [hf] at hg
    exact Option.some.inj hg
  refine ⟨f, hf, ?_, ?_⟩
  · rw [hc]
    norm_num [profA, profB, totalWeight]
  · rw [hfg, hp]
    norm_num [profA, profB, totalWeight]
/-- C2 counterexample: no ingredient supplies `protein_g`, yet the
combined result is exactly the one obtained when an ingredient supplies
an explicit `0` there, and the combined result reports `protein_g` as the
number `0` rather than as unknown — the aggregator keeps no per-key
record of whether any ingredient supplied a value. -/
theorem combineIngredients_absence_is_zero_cex :
    combineIngredients [⟨profAbsent, 100⟩] =
      combineIngredients [⟨profExplicitZero, 100⟩] ∧
    (combineIngredients [⟨profAbsent, 100⟩]).map
      (fun f => f NutrientKey.protein_g) = some 0 := by
  have h1 : totalWeight [⟨profAbsent, (100 : ℚ)⟩] ≠ 0 := by
    norm_num [totalWeight]
  have h2 : totalWeight [⟨profExplicitZero, (100 : ℚ)⟩] ≠ 0 := by
    norm_num [totalWeight]
  constructor
  · rw [combineIngredients_eq_of_ne _ h1, combineIngredients_eq_of_ne _ h2]
    congr 1
    funext k
    cases k <;> norm_num [contrib, profAbsent, profExplicitZero, totalWeight]
  · rw [combineIngredients_eq_of_ne _ h1]
    simp [contrib, profAbsent]

/-- C2 (amended): for every ingredient list and every nutrient key `k`,
absence of `k` on an ingredient is treated exactly as an explicit `0`
there: filling in `0` wherever `k` is absent (also on a mixed list where
other ingredients do supply `k`) leaves the whole combined result
unchanged, so absence contributes `0` to the sum for that key only and
does not null out the key — ingredients that supply `k` still contribute
their value to `combined[k] = (Σ_i grams_i/100 * (profile_i[k] or 0)) *
(100/total)` — and a key supplied by no ingredient comes back as the
number `0`, with no unknown marker. -/
theorem combineIngredients_absent_key (l : List CombineInput) (k : NutrientKey) :
    combineIngredients l = combineIngredients (l.map (fillKeyZero k)) ∧
    (∀ f, combineIngredients l = some f →
      f k = (l.map (fun i => ((i.nutrition k).getD 0) * (i.weight_g / 100))).sum
              * (100 / totalWeight l)) ∧
    ((∀ i ∈ l, i.nutrition k = none) →
      ∀ f, combineIngredients l = some f → f k = 0) := by
  have hcon : ∀ i, contrib k i = ((i.nutrition k).getD 0) * (i.weight_g / 100) := by
    intro i
    unfold contrib
    cases hn : i.nutrition k <;> simp [hn]
  have hW : totalWeight (l.map (fillKeyZero k)) = totalWeight l := by
    unfold totalWeight
    rw [List.map_map]
    rfl
  refine ⟨?_, ?_, ?_⟩
  · by_cases hT : totalWeight l = 0
    · have hT2 : totalWeight (l.map (fillKeyZero k)) = 0 := by rw [hW, hT]
      simp [combineIngredients, hT, hT2]
    · have hT2 : totalWeight (l.map (fillKeyZero k)) ≠ 0 := by rw [hW]; exact hT
      rw [combineIngredients_eq_of_ne _ hT, combineIngredients_eq_of_ne _ hT2, hW]
      congr 1
      funext k2
      congr 2
      rw [List.map_map]
      apply List.map_congr_left
      intro i hi
      show contrib k2 i = contrib k2 (fillKeyZero k i)
      by_cases hkk : k2 = k
      · subst hkk
        rw [hcon]
        simp [contrib, fillKeyZero]
      · simp [contrib, fillKeyZero, hkk]
  · intro f hf
    by_cases hT : totalWeight l = 0
    · simp [combineIngredients, hT] at hf
    · rw [combineIngredients_eq_of_ne _ hT] at hf
      have hfx := Option.some.inj hf
      rw [← hfx]
      show (l.map (contrib k)).sum * (100 / totalWeight l) =
        (l.map (fun i => ((i.nutrition k).getD 0) * (i.weight_g / 100))).sum
          * (100 / totalWeight l)
      congr 1
      apply congrArg
      apply List.map_congr_left
      intro i hi
      exact hcon i
  · intro h f hf
    by_cases hT : totalWeight l = 0
    · simp [combineIngredients, hT] at hf
    · rw [combineIngredients_eq_of_ne _ hT] at hf
      have hfx := Option.some.inj hf
      rw [← hfx]
      show (l.map (contrib k)).sum * (100 / totalWeight l) = 0
      have hz : (l.map (contrib k)).sum = 0 := by
        apply List.sum_eq_zero
        intro x hx
        obtain ⟨i, hi, rfl⟩ := List.mem_map.mp hx
        simp [contrib, h i hi]
      rw [hz, zero_mul]

/-- Witness for the amended C2 on the mixed list: `protein_g` is absent
on the 100 g ingredient and supplied as 10 by the 200 g ingredient;
filling the absence with an explicit `0` changes nothing, and the
combined `protein_g` is `20/3` — the absence contributed `0` while the
supplying ingredient's value was kept, and at a list where no
ingredient supplies the key the combined value is `0`. -/
theorem combineIngredients_absent_key_witness :
    combineIngredients mixedList =
      combineIngredients (mixedList.map (fillKeyZero NutrientKey.protein_g)) ∧
    (∃ f, combineIngredients mixedList = some f ∧
      f NutrientKey.protein_g = 20 / 3) ∧
    (∃ f, combineIngredients [⟨profAbsent, 100⟩] = some f ∧
      f NutrientKey.protein_g = 0) := by
  have hmix := combineIngredients_absent_key mixedList NutrientKey.protein_g
  have habs := combineIngredients_absent_key [⟨profAbsent, 100⟩] NutrientKey.protein_g
  have hT : totalWeight mixedList ≠ 0 := by
    norm_num [totalWeight, mixedList]
  have hT1 : totalWeight [⟨profAbsent, (100 : ℚ)⟩] ≠ 0 := by
    norm_num [totalWeight]
  refine ⟨hmix.1, ?_, ?_⟩
  · refine ⟨_, combineIngredients_eq_of_ne _ hT, ?_⟩
    rw [hmix.2.1 _ (combineIngredients_eq_of_ne _ hT)]
    norm_num [mixedList, profAbsent, profA, totalWeight]
  · refine ⟨_, combineIngredients_eq_of_ne _ hT1, ?_⟩
    exact habs.2.2 (by intro i hi; fin_cases hi; rfl) _
      (combineIngredients_eq_of_ne _ hT1)

/-- C3: if some ingredient of the `RecipeBuilder` list has a `null` or
non-positive resolved weight (in particular while its conversion is
outstanding), the `combinedNutrition` memo yields `null` — aggregation
fails closed instead of dropping the ingredient. -/
theorem combinedNutrition_fails_closed (l : List RBIngredient) (i : RBIngredient)
    (hi : i ∈ l)
    (h : i.weight_g = none ∨ ∃ w, i.weight_g = some w ∧ w ≤ 0) :
    combinedNutrition l = none := by
  have hac : allConverted l = false := by
    cases hb : allConverted l with
    | false => rfl
    | true =>
        exfalso
        rw [allConverted, List.all_eq_true] at hb
        have hcv := hb i hi
        rcases h with h0 | ⟨w, hw, hle⟩
        · rw [h0] at hcv
          exact absurd hcv (by simp)
        · rw [hw] at hcv
          simp only [decide_eq_true_eq] at hcv
          linarith
  simp [combinedNutrition, hac]

/-- Witness for C3: one ingredient still pending conversion
(`weight_g = null`) makes the combined nutrition `null`. -/
theorem combinedNutrition_fails_closed_witness :
    combinedNutrition [⟨"flour", 2, "cup", profA, none, none, none⟩] = none :=
  combinedNutrition_fails_closed [⟨"flour", 2, "cup", profA, none, none, none⟩]
    ⟨"flour", 2, "cup", profA, none, none, none⟩
    (List.mem_singleton.mpr rfl) (Or.inl rfl)

/-- C5: conversion is total — it always returns a record with a numeric
gram value — and when the external lookup errors (unit not `"g"`), it
degrades to the estimate `grams = quantity * 100` with `low` confidence
and a non-null warning note instead of propagating the failure. -/
theorem convertIngredient_degrades_never_raises (descr : String) (q : ℚ)
    (u : String) (lk : Except String ConvResult) (e : String) (h : u ≠ "g") :
    (∃ r : ConvResult, convertIngredient descr q u lk = r) ∧
    convertIngredient descr q u (Except.error e) =
      ⟨q * 100, Confidence.low, some "Conversion failed. Using rough estimate."⟩ ∧
    (convertIngredient descr q u (Except.error e)).note ≠ none := by
  refine ⟨⟨_, rfl⟩, ?_, ?_⟩
  · simp [convertIngredient, h]
  · simp [convertIngredient, h]

/-- Witness for C5: a cup of flour whose external lookup times out. -/
theorem convertIngredient_degrades_never_raises_witness :
    (∃ r : ConvResult,
      convertIngredient "flour" 2 "cup" (Except.error "timeout") = r) ∧
    convertIngredient "flour" 2 "cup" (Except.error "timeout") =
      ⟨2 * 100, Confidence.low, some "Conversion failed. Using rough estimate."⟩ ∧
    (convertIngredient "flour" 2 "cup" (Except.error "timeout")).note ≠ none :=
  convertIngredient_degrades_never_raises "flour" 2 "cup"
    (Except.error "timeout") "timeout" (by decide)

/-- C6: unit `"g"` resolves directly — grams equal the quantity with
`high` confidence for every ingredient name, the external lookup outcome
is irrelevant (none is performed) — and a unit change to `"g"` always
sets the resolved weight from the quantity with `high` confidence,
regardless of the ingredient's prior conversion state. -/
theorem convertIngredient_direct_grams (descr : String) (q : ℚ)
    (lk lk2 : Except String ConvResult) (ing : RBIngredient) :
    convertIngredient descr q "g" lk = ⟨q, Confidence.high, none⟩ ∧
    convertIngredient descr q "g" lk = convertIngredient descr q "g" lk2 ∧
    handleUnitChangeUpdate ing "g" =
      { ing with
          unit := "g"
          weight_g := some ing.quantity
          confidence := some Confidence.high
          conversionNote := none } := by
  refine ⟨?_, ?_, ?_⟩
  · simp [convertIngredient]
  · simp [convertIngredient]
  · simp [handleUnitChangeUpdate]
/-- C7: when every ingredient has an assigned confidence tier and the
list is nonempty, the overall confidence indicator is attained by some
contributing ingredient and is a lower bound of all of them — it equals
the worst (minimum) confidence: any `low` forces `low`, else any
`medium` forces `medium`. -/
theorem overallConfidence_is_min (l : List RBIngredient)
    (hne : l ≠ []) (hall : ∀ i ∈ l, (i.confidence).isSome = true) :
    (∃ i ∈ l, i.confidence = some (overallConfidence l)) ∧
    (∀ i ∈ l, ∀ c, i.confidence = some c →
      confRank (overallConfidence l) ≤ confRank c) := by
  unfold overallConfidence
  by_cases hL : hasLowConfidence l = true
  · rw [if_pos hL]
    constructor
    · rw [hasLowConfidence, List.any_eq_true] at hL
      obtain ⟨i, hi, he⟩ := hL
      exact ⟨i, hi, by simpa using he⟩
    · intro i hi c hc
      cases c <;> simp [confRank]
  · rw [if_neg hL]
    have hnl : ∀ i ∈ l, i.confidence ≠ some Confidence.low := by
      intro i hi hc
      apply hL
      rw [hasLowConfidence, List.any_eq_true]
      exact ⟨i, hi, by simpa using hc⟩
    by_cases hM : hasMediumConfidence l = true
    · rw [if_pos hM]
      constructor
      · rw [hasMediumConfidence, List.any_eq_true] at hM
        obtain ⟨i, hi, he⟩ := hM
        exact ⟨i, hi, by simpa using he⟩
      · intro i hi c hc
        cases c with
        | low => exact absurd hc (hnl i hi)
        | medium => exact le_refl _
        | high => simp [confRank]
    · rw [if_neg hM]
      have hnm : ∀ i ∈ l, i.confidence ≠ some Confidence.medium := by
        intro i hi hc
        apply hM
        rw [hasMediumConfidence, List.any_eq_true]
        exact ⟨i, hi, by simpa using hc⟩
      have hhigh : ∀ i ∈ l, i.confidence = some Confidence.high := by
        intro i hi
        obtain ⟨c, hc⟩ := Option.isSome_iff_exists.mp (hall i hi)
        cases c with
        | low => exact absurd hc (hnl i hi)
        | medium => exact absurd hc (hnm i hi)
        | high => exact hc
      constructor
      · obtain ⟨i, hi⟩ := List.exists_mem_of_ne_nil l hne
        exact ⟨i, hi, hhigh i hi⟩
      · intro i hi c hc
        rw [hhigh i hi] at hc
        cases Option.some.inj hc
        exact le_refl _

/-- Witness for C7 on a two-ingredient list with `medium` and `low`
tiers: the overall indicator is attained and is a lower bound. -/
theorem overallConfidence_is_min_witness :
    (∃ i ∈ [ingMed, ingLow],
      i.confidence = some (overallConfidence [ingMed, ingLow])) ∧
    (∀ i ∈ [ingMed, ingLow], ∀ c, i.confidence = some c →
      confRank (overallConfidence [ingMed, ingLow]) ≤ confRank c) :=
  overallConfidence_is_min [ingMed, ingLow] (by simp)
    (by intro i hi; fin_cases hi <;> rfl)

/-- C8: normalizing the aggregate with a yield weight equal to the total
raw weight is the identity (the scale factor is exactly `1`), and the
`RecipeReview` initial yield weight defaults to the total raw weight (the
sum of resolved grams) when no explicit yield weight is present, so the
default normalization changes nothing. -/
theorem normalizeYield_default_identity (agg : NutrientKey → ℚ)
    (l : List CombineInput) (h : 0 < totalWeight l) :
    initialYieldWeight none (some (totalWeight l)) = totalWeight l ∧
    totalWeight l / totalWeight l = 1 ∧
    normalizeYield agg (totalWeight l) (totalWeight l) = agg ∧
    normalizeYield agg (totalWeight l)
      (initialYieldWeight none (some (totalWeight l))) = agg := by
  have hne : totalWeight l ≠ 0 := ne_of_gt h
  have h1 : initialYieldWeight none (some (totalWeight l)) = totalWeight l := by
    simp [initialYieldWeight, jsOr, hne]
  have h2 : totalWeight l / totalWeight l = 1 := div_self hne
  have h3 : normalizeYield agg (totalWeight l) (totalWeight l) = agg := by
    funext k
    rw [normalizeYield, h2, mul_one]
  exact ⟨h1, h2, h3, by rw [h1]; exact h3⟩

/-- Witness for C8 at a 300 g single-ingredient recipe and a constant
aggregate profile. -/
theorem normalizeYield_default_identity_witness :
    initialYieldWeight none (some (totalWeight [⟨profA, 300⟩])) =
      totalWeight [⟨profA, 300⟩] ∧
    totalWeight [⟨profA, 300⟩] / totalWeight [⟨profA, 300⟩] = 1 ∧
    normalizeYield (fun _ => 7) (totalWeight [⟨profA, 300⟩])
      (totalWeight [⟨profA, 300⟩]) = (fun _ => 7) ∧
    normalizeYield (fun _ => 7) (totalWeight [⟨profA, 300⟩])
      (initialYieldWeight none (some (totalWeight [⟨profA, 300⟩]))) =
      (fun _ => 7) :=
  normalizeYield_default_identity (fun _ => 7) [⟨profA, 300⟩]
    (by norm_num [totalWeight])

/-- C9: the per-serving calculator is invoked only when the serving size
and the servings-per-container are positive; a non-positive value is
rejected with a validation error message and the calculator is not
invoked. -/
theorem handleSubmit_validates (s : ℚ) (d : String) (p : ℚ) :
    (∀ cfg, handleSubmit s d p = SubmitOutcome.calculated cfg →
      0 < s ∧ 0 < p ∧ cfg = ⟨s, d, p⟩) ∧
    (s ≤ 0 ∨ p ≤ 0 → ∃ m, handleSubmit s d p = SubmitOutcome.failed m) := by
  constructor
  · intro cfg hcfg
    unfold handleSubmit at hcfg
    by_cases hs : s ≤ 0
    · rw [if_pos hs] at hcfg
      exact absurd hcfg (by simp)
    · rw [if_neg hs] at hcfg
      by_cases hp : p ≤ 0
      · rw [if_pos hp] at hcfg
        exact absurd hcfg (by simp)
      · rw [if_neg hp] at hcfg
        by_cases hd : d.trim = ""
        · rw [if_pos hd] at hcfg
          exact absurd hcfg (by simp)
        · rw [if_neg hd] at hcfg
          exact ⟨lt_of_not_le hs, lt_of_not_le hp,
            (SubmitOutcome.calculated.inj hcfg).symm⟩
  · intro h
    unfold handleSubmit
    by_cases hs : s ≤ 0
    · exact ⟨_, by rw [if_pos hs]⟩
    · have hp : p ≤ 0 := h.resolve_left hs
      exact ⟨_, by rw [if_neg hs, if_pos hp]⟩

/-- Witness for C9: a serving size of `-1` is rejected with a validation
message. -/
theorem handleSubmit_validates_witness :
    ∃ m, handleSubmit (-1) "1 serving (30g)" 2 = SubmitOutcome.failed m :=
  (handleSubmit_validates (-1) "1 serving (30g)" 2).2 (Or.inl (by norm_num))

/-- C10: aggregation is invariant under uniform rescaling of the gram
weights: for every `c > 0`, scaling every weight by `c` leaves
`combineIngredients` unchanged, including the `null` result when the
weights sum to `0`. -/
theorem combineIngredients_scale_invariant (c : ℚ) (hc : 0 < c)
    (l : List CombineInput) :
    combineIngredients (scaleWeights c l) = combineIngredients l := by
  have hc0 : c ≠ 0 := ne_of_gt hc
  have hW : totalWeight (scaleWeights c l) = c * totalWeight l := by
    unfold totalWeight scaleWeights
    rw [List.map_map]
    show (l.map (fun i => c * i.weight_g)).sum = c * (l.map (fun i => i.weight_g)).sum
    rw [← List.sum_map_mul_left]
  by_cases hT : totalWeight l = 0
  · have hT2 : totalWeight (scaleWeights c l) = 0 := by rw [hW, hT, mul_zero]
    simp [combineIngredients, hT, hT2]
  · have hT2 : totalWeight (scaleWeights c l) ≠ 0 := by
      rw [hW]
      exact mul_ne_zero hc0 hT
    rw [combineIngredients_eq_of_ne _ hT, combineIngredients_eq_of_ne _ hT2, hW]
    congr 1
    funext k
    have hsum : ((scaleWeights c l).map (contrib k)).sum =
        c * (l.map (contrib k)).sum := by
      unfold scaleWeights
      rw [List.map_map, ← List.sum_map_mul_left]
      apply congrArg
      apply List.map_congr_left
      intro i hi
      show contrib k { i with weight_g := c * i.weight_g } = c * contrib k i
      unfold contrib
      cases hn : i.nutrition k
      · simp
      · show (fun v => v * (c * i.weight_g / 100)) _ = _
        simp only
        ring
    rw [hsum]
    field_simp
    ring

/-- Witness for C10: doubling the weight of a single 200 g ingredient
leaves the combined per-100g profile unchanged. -/
theorem combineIngredients_scale_invariant_witness :
    combineIngredients (scaleWeights 2 [⟨profA, 200⟩]) =
      combineIngredients [⟨profA, 200⟩] :=
  combineIngredients_scale_invariant 2 (by norm_num) [⟨profA, 200⟩]
